import Mathlib

/-!
Shallow embedding of the order/booking transactional core of the
sqaleshop-server repository: order creation (transactional body and its
non-transactional fallback, which share the same persisted-order
computation), inventory decrement/restore, the status timeline, refunds,
booking creation, and the transaction retry helper.

Money and quantities are JavaScript numbers; they are embedded as `ℚ`.
A JavaScript value that may be `undefined`/absent is embedded as `Option`.
`none` in a price position also stands for the `NaN` that the source
guards with `isNaN`. Mongo collections are embedded as association lists
keyed by a numeric id.
-/

set_option linter.unusedVariables false

/-- Structured application error: `AppError(message, statusCode)`
(src/middleware, used throughout part_008). Interpolated fragments of the
source messages (product names, balances) are omitted. -/
structure AppError where
  message : String
  statusCode : Nat
deriving DecidableEq, Repr, Inhabited

/-- Product variant subdocument: `sku` and `price` are optional in the
schema. `vid` stands for the Mongo `_id`. -/
structure Variant where
  vid : Nat
  sku : Option String
  price : Option ℚ
deriving DecidableEq, Repr, Inhabited

/-- Catalog product: `price`/`basePrice` optional (part_008 line 631 tests
`typeof product.price === 'number'`), `inventory` is the stock counter
decremented by order creation. -/
structure Product where
  pid : Nat
  name : String
  price : Option ℚ
  basePrice : Option ℚ
  inventory : ℚ
  variants : List Variant
deriving DecidableEq, Repr, Inhabited

/-- The product collection, as an association list keyed by `pid`. -/
abbrev Catalog := List Product

/-- `Product.findById`. -/
def findProduct (db : Catalog) (pid : Nat) : Option Product :=
  db.find? (fun p => p.pid = pid)

/-- `product.save()`: replaces the stored document with the same id. -/
def saveProduct (db : Catalog) (p : Product) : Catalog :=
  db.map (fun q => if q.pid = p.pid then p else q)

/-- The `item.variantId` input: either a valid ObjectId or free text
(treated as a SKU by `resolveVariantSelection`). -/
inductive VariantRef
  | byId (vid : Nat)
  | byText (s : String)
deriving DecidableEq, Repr, Inhabited

/-- One requested order line (`items[]` of the request body).
`price` is the client-supplied per-item price (part_008 line 632). -/
structure ReqItem where
  productId : Nat
  variantId : Option VariantRef
  variantSku : Option String
  price : Option ℚ
  quantity : ℚ
deriving DecidableEq, Repr, Inhabited

/-- JavaScript truthiness on an optional number: `0` is falsy. -/
def truthyQ : Option ℚ → Option ℚ
  | some q => if q = 0 then none else some q
  | none => none

/-- JavaScript truthiness on an optional string: `''` is falsy. -/
def truthyS : Option String → Bool
  | some s => s ≠ ""
  | none => false

/-- The `matchSku` closure of `resolveVariantSelection`
(part_008 lines 506-511): case-insensitive exact SKU match, falsy/blank
SKU matches nothing. -/
def matchSku (variants : List Variant) : Option String → Option Variant
  | none => none
  | some s =>
    if s.trim.toLower = "" then none
    else variants.find? (fun v => v.sku.map String.toLower = some (s.trim.toLower))

/-- `resolveVariantSelection(product, item)` (part_008 lines 483-535),
reduced to the resolved variant document: try the variant id, then the id
field interpreted as SKU text, then `item.variantSku`. -/
def resolveVariantSelection (product : Product) (item : ReqItem) : Option Variant :=
  if product.variants = [] then none
  else
    let byId : Option Variant :=
      match item.variantId with
      | some (VariantRef.byId v) => product.variants.find? (fun w => w.vid = v)
      | _ => none
    match byId with
    | some v => some v
    | none =>
      let byText : Option Variant :=
        match item.variantId with
        | some (VariantRef.byText s) => matchSku product.variants (some s)
        | _ => none
      match byText with
      | some v => some v
      | none => matchSku product.variants item.variantSku

/-- `const unitPrice = item.price || variantDoc?.price || fallbackProductPrice`
(part_008 lines 631-632): short-circuit `||` keeps the first truthy value,
the last operand is used as-is (possibly absent, modelled as `none`). -/
def resolveUnitPrice (product : Product) (item : ReqItem) : Option ℚ :=
  let variantDoc := resolveVariantSelection product item
  let fallbackProductPrice : Option ℚ :=
    match product.price with
    | some q => some q
    | none => product.basePrice
  match truthyQ item.price with
  | some p => some p
  | none =>
    match truthyQ (variantDoc.bind (fun v => v.price)) with
    | some p => some p
    | none => fallbackProductPrice

/-- `isNaN(unitPrice) || unitPrice <= 0` (part_008 line 635): an absent or
non-numeric price is invalid, as is a non-positive one. -/
def unitPriceInvalid : Option ℚ → Bool
  | none => true
  | some q => q ≤ 0

/-- A persisted order line, keeping the resolved unit/total price. -/
structure OrderItem where
  productId : Nat
  variant : Option Nat
  quantity : ℚ
  unitPrice : ℚ
  totalPrice : ℚ
deriving DecidableEq, Repr, Inhabited

/-- The per-item loop of `createOrder` / `createOrderWithoutTransaction`
(part_008 lines 615-681 and 151-217, identical computations): look up the
product, check inventory, resolve the unit price, accumulate the subtotal
and decrement stock. Returns the updated catalog, the processed items and
the computed subtotal. -/
def processItems : Catalog → List ReqItem → Except AppError (Catalog × List OrderItem × ℚ)
  | db, [] => Except.ok (db, [], 0)
  | db, item :: rest =>
    match findProduct db item.productId with
    | none => Except.error ⟨"Product not found", 404⟩
    | some product =>
      if product.inventory < item.quantity then
        Except.error ⟨"Insufficient inventory", 400⟩
      else
        let variantDoc := resolveVariantSelection product item
        match resolveUnitPrice product item with
        | none => Except.error ⟨"Invalid unit price", 400⟩
        | some up =>
          if up ≤ 0 then Except.error ⟨"Invalid unit price", 400⟩
          else
            let totalPrice := up * item.quantity
            let db1 := saveProduct db { product with inventory := product.inventory - item.quantity }
            match processItems db1 rest with
            | Except.error e => Except.error e
            | Except.ok (db2, pis, sub) =>
              Except.ok (db2,
                ⟨item.productId, variantDoc.map Variant.vid, item.quantity, up, totalPrice⟩ :: pis,
                totalPrice + sub)

/-- One timeline entry `{status, timestamp, note, updatedBy}`; the
timestamp and actor play no part in any claim and are omitted. -/
structure TimelineEntry where
  status : String
  note : String
deriving DecidableEq, Repr, Inhabited

/-- One refund record pushed onto `payment.refunds`. -/
structure RefundRecord where
  amount : ℚ
  reason : String
  method : String
deriving DecidableEq, Repr, Inhabited

/-- The `payment` subdocument of an order/booking. `amount` has no
default in the schema, hence `Option`; `refundedAmount` defaults to 0. -/
structure Payment where
  method : String
  status : String
  amount : Option ℚ
  refundedAmount : ℚ
  refunds : List RefundRecord
deriving DecidableEq, Repr, Inhabited

/-- The `pricing` block of an order. -/
structure Pricing where
  subtotal : ℚ
  tax : ℚ
  shipping : ℚ
  discount : ℚ
  total : ℚ
deriving DecidableEq, Repr, Inhabited

/-- An order document. `statusModified` embeds mongoose's modified-paths
tracking for the `status` path (set by assigning a different value,
cleared by `save()`), which drives the timeline push in the pre-save hook
(order.model.js lines 299-305). The other modified-path triggers of the
hook (`items`, `discount`, `shipping.cost`) are never modified on an
existing document by any embedded flow, so they are not tracked. -/
structure Order where
  items : List OrderItem
  pricing : Pricing
  payment : Payment
  status : String
  timeline : List TimelineEntry
  statusModified : Bool
deriving DecidableEq, Repr, Inhabited

/-- Assignment `order.status = s`: mongoose marks the path modified only
when the assigned value differs from the stored one. -/
def Order.setStatus (o : Order) (s : String) : Order :=
  { o with status := s, statusModified := o.statusModified || decide (s ≠ o.status) }

/-- Assignment `order.payment.status = s` (a different path; it does not
trigger the status-timeline push of the hook). -/
def Order.setPaymentStatus (o : Order) (s : String) : Order :=
  { o with payment := { o.payment with status := s } }

/-- `save()` on an existing (non-new) order: the pre-save hook
(order.model.js lines 253-320) pushes a timeline entry when the `status`
path is modified, then mongoose clears the modified flags. Order-number
and invoice-token generation and the `isNew` branches do not apply. -/
def Order.saveExisting (o : Order) : Order :=
  let o1 :=
    if o.statusModified then
      { o with timeline := o.timeline ++ [(⟨o.status, "Status changed"⟩ : TimelineEntry)] }
    else o
  { o1 with statusModified := false }

/-- `orderSchema.methods.updateStatus` (order.model.js lines 323-332):
set the status, push a timeline entry, then `save()` (which runs the
pre-save hook above). -/
def Order.updateStatus (o : Order) (newStatus : String) (note : Option String) : Order :=
  let o1 := o.setStatus newStatus
  let o2 := { o1 with timeline := o1.timeline ++ [(⟨newStatus, note.getD "Status updated"⟩ : TimelineEntry)] }
  o2.saveExisting

/-- `orderSchema.methods.calculateRefundAmount` (order.model.js lines
343-347): `max((payment?.amount ?? pricing.total) - (payment?.refundedAmount ?? 0), 0)`.
`pricing.total` is a required field, so its `?? 0` fallback is vacuous. -/
def Order.calculateRefundAmount (o : Order) : ℚ :=
  let totalPaid := o.payment.amount.getD o.pricing.total
  let alreadyRefunded := o.payment.refundedAmount
  max (totalPaid - alreadyRefunded) 0

/-- `orderSchema.methods.canBeCancelled` (order.model.js lines 349-351). -/
def Order.canBeCancelled (o : Order) : Bool :=
  o.status = "pending" || o.status = "confirmed"

/-- `orderSchema.methods.canBeRefunded` (order.model.js lines 353-362).
The `paymentStatus &&` truthiness test of the source is subsumed by the
membership test on the enumerated (non-empty) status strings. -/
def Order.canBeRefunded (o : Order) : Bool :=
  decide (0 < o.calculateRefundAmount) &&
  (o.status = "delivered" || o.status = "shipped" || o.status = "partially_refunded") &&
  (o.payment.status = "completed" || o.payment.status = "partially_refunded")

/-- The parsed `orderData` of a create-order request. The customer and
items fields are optional to embed the source's truthiness validation;
`clientSubtotal`/`clientTotal` are the advisory figures the client may
send; `paymentOverrideAmount` embeds a client `payment.amount` carried in
by the `...payment` spread (part_008 lines 814-819). -/
structure OrderRequest where
  customerEmail : Option String
  customerName : Option String
  customerPhone : Option String
  items : Option (List ReqItem)
  deliveryFee : Option ℚ
  discountApplied : Option ℚ
  clientSubtotal : Option ℚ
  clientTotal : Option ℚ
  paymentMethod : Option String
  paymentOverrideAmount : Option ℚ
deriving DecidableEq, Repr, Inhabited

/-- `!customer?.email || !customer?.name || !customer?.phone` negated. -/
def validCustomer (req : OrderRequest) : Bool :=
  truthyS req.customerEmail && truthyS req.customerName && truthyS req.customerPhone

/-- The absolute frontend-vs-server difference logged by the source
(part_008 lines 769-785). It is computed and logged only: the persisted
pricing always uses the server-computed values. -/
def pricingMismatch (req : OrderRequest) (calculatedSubtotal finalTotal : ℚ) : Bool :=
  let frontendSubtotal := (truthyQ req.clientSubtotal).getD calculatedSubtotal
  let frontendTotal := (truthyQ req.clientTotal).getD finalTotal
  decide (1 < |frontendSubtotal - calculatedSubtotal|) ||
  decide (1 < |frontendTotal - finalTotal|)

/-- The persisted-order computation shared verbatim by the transactional
body of `exports.createOrder` (part_008 lines 544-880) and by
`createOrderWithoutTransaction` (part_008 lines 80-446): validate the
customer and items, run the item loop, derive the pricing block
(`tax = 0`, `shipping = delivery?.fee || 0`,
`discount = discount?.appliedAmount || 0`,
`total = subtotal + tax + shipping - discount`), reject a non-positive
total, and build the order with status `pending`, payment status
`pending` and the initial timeline entry installed by the pre-save hook
for new documents. Store resolution, order-number/invoice-token
generation, customer resolution and notifications are outside the claims
and elided. -/
def buildOrder (db : Catalog) (req : OrderRequest) : Except AppError (Catalog × Order) :=
  if ¬ validCustomer req then
    Except.error ⟨"Customer information is required", 400⟩
  else
    match req.items with
    | none => Except.error ⟨"Order items are required", 400⟩
    | some its =>
      if its = [] then Except.error ⟨"Order items are required", 400⟩
      else
        match processItems db its with
        | Except.error e => Except.error e
        | Except.ok (db1, pis, calculatedSubtotal) =>
          let tax : ℚ := 0
          let shippingCost := (truthyQ req.deliveryFee).getD 0
          let discountAmount := (truthyQ req.discountApplied).getD 0
          let finalTotal := calculatedSubtotal + tax + shippingCost - discountAmount
          if finalTotal ≤ 0 then Except.error ⟨"Invalid order total calculation", 400⟩
          else
            let logOnly := pricingMismatch req calculatedSubtotal finalTotal
            Except.ok (db1,
              { items := pis
              , pricing := ⟨calculatedSubtotal, tax, shippingCost, discountAmount, finalTotal⟩
              , payment :=
                  { method := (req.paymentMethod.getD "cash")
                  , status := "pending"
                  , amount := some (req.paymentOverrideAmount.getD finalTotal)
                  , refundedAmount := 0
                  , refunds := [] }
              , status := "pending"
              , timeline := [(⟨"pending", "Order created"⟩ : TimelineEntry)]
              , statusModified := false })

/-- The inventory-restore loop of `exports.cancelOrder` (part_008 lines
1177-1184): for each item, re-load the product and, when it still exists,
increment its stock by the item quantity. -/
def restoreInventory : Catalog → List OrderItem → Catalog
  | db, [] => db
  | db, it :: rest =>
    let db1 :=
      match findProduct db it.productId with
      | some p => saveProduct db { p with inventory := p.inventory + it.quantity }
      | none => db
    restoreInventory db1 rest

/-- `exports.cancelOrder` (part_008 lines 1156-1217), given the loaded
order: guard on `canBeCancelled`, restore inventory, `updateStatus` to
`cancelled`, optionally flip a completed payment to `refunded`, and save
again (the second save modifies no `status` path, so it pushes nothing).
An error aborts the surrounding transaction: catalog and order are
unchanged. -/
def cancelOrder (db : Catalog) (o : Order) (reason : Option String) (refundAmount : Option ℚ) :
    Except AppError (Catalog × Order) :=
  if ¬ o.canBeCancelled then
    Except.error ⟨"Order cannot be cancelled in current status", 400⟩
  else
    let db1 := restoreInventory db o.items
    let o1 := o.updateStatus "cancelled" (some (reason.getD "Order cancelled"))
    let o2 :=
      if (truthyQ refundAmount).isSome && o1.payment.status = "completed"
      then o1.setPaymentStatus "refunded" else o1
    Except.ok (db1, o2.saveExisting)

/-- The refund summary returned by `processRefund`. -/
structure RefundInfo where
  amount : ℚ
  totalRefunded : ℚ
  remainingBalance : ℚ
deriving DecidableEq, Repr, Inhabited

/-- `exports.processRefund` (part_008 lines 1222-1313), given the loaded
order: guard on `canBeRefunded`, reject a non-positive amount, an already
fully refunded order, and an amount above the refundable balance; then
push the refund record, add to `refundedAmount`, set payment/order status
to `refunded` when the new refund total reaches the payment amount and to
`partially_refunded` otherwise, push the refund timeline entry, and save
(running the pre-save hook). An error leaves the stored order as it was. -/
def processRefund (o : Order) (amount : ℚ) (reason method : String) :
    Except AppError (Order × RefundInfo) :=
  if ¬ o.canBeRefunded then Except.error ⟨"Order is not eligible for refund", 400⟩
  else
    let refundableBalance := o.calculateRefundAmount
    if amount ≤ 0 then Except.error ⟨"Refund amount must be greater than zero", 400⟩
    else if refundableBalance ≤ 0 then Except.error ⟨"Order is already fully refunded", 400⟩
    else if refundableBalance < amount then
      Except.error ⟨"Refund amount cannot exceed the refundable balance", 400⟩
    else
      let paymentAmount := o.payment.amount.getD o.pricing.total
      let existingRefunds := o.payment.refundedAmount
      let updatedRefundTotal := existingRefunds + amount
      let isFullyRefunded : Bool := decide (paymentAmount ≤ updatedRefundTotal)
      let o1 :=
        { o with payment :=
            { o.payment with
              refundedAmount := updatedRefundTotal
            , refunds := o.payment.refunds ++ [(⟨amount, reason, method⟩ : RefundRecord)] } }
      let o2 :=
        if isFullyRefunded then
          (o1.setPaymentStatus "refunded").setStatus "refunded"
        else
          let o1b := o1.setPaymentStatus "partially_refunded"
          if o1b.status ≠ "refunded" then o1b.setStatus "partially_refunded" else o1b
      let o3 :=
        { o2 with timeline := o2.timeline ++
            [(⟨if isFullyRefunded then "refunded" else "partially_refunded",
               "Refund processed"⟩ : TimelineEntry)] }
      let o4 := o3.saveExisting
      Except.ok (o4, ⟨amount, updatedRefundTotal, o4.calculateRefundAmount⟩)

/-- A booking slot: the fields `createBooking` reads (`storeId`, lifecycle
`status`, and `price` used as the subtotal fallback). -/
structure Slot where
  sid : Nat
  storeId : Nat
  status : String
  price : ℚ
deriving DecidableEq, Repr, Inhabited

/-- The parsed `bookingData` of a public create-booking request. The date
fields only undergo a presence check, so they are kept abstract. -/
structure BookingRequest where
  customerEmail : Option String
  customerName : Option String
  customerPhone : Option String
  slotId : Option Nat
  startDate : Option Nat
  endDate : Option Nat
  clientSubtotal : Option ℚ
  clientTotal : Option ℚ
  discountApplied : Option ℚ
  paymentMethod : Option String
deriving DecidableEq, Repr, Inhabited

/-- The `pricing` block of a booking (no shipping component). -/
structure BookingPricing where
  subtotal : ℚ
  tax : ℚ
  discount : ℚ
  total : ℚ
deriving DecidableEq, Repr, Inhabited

/-- A booking document (the fields the claims touch). -/
structure Booking where
  storeId : Nat
  slotId : Nat
  pricing : BookingPricing
  status : String
  payment : Payment
  timeline : List TimelineEntry
deriving DecidableEq, Repr, Inhabited

/-- `bookingSchema.methods.calculateRefundAmount` (booking.model.js lines
260-264): same formula as the order method. -/
def Booking.calculateRefundAmount (b : Booking) : ℚ :=
  let totalPaid := b.payment.amount.getD b.pricing.total
  let alreadyRefunded := b.payment.refundedAmount
  max (totalPaid - alreadyRefunded) 0

/-- `exports.createBooking` (booking.controller.js lines 21-260), given
the resolved store (`storeId`, `bookingEnabled`) and the slot collection:
validate customer/slot/date presence, require bookings enabled, require
the slot to exist, belong to the store and be `active`; then compute
`subtotal = clientSubtotal || slot.price`,
`discount = discount?.appliedAmount || 0`,
`total = clientTotal || (subtotal - discount)` and persist with status
`pending`, payment status `pending` and `tax = 0` (timeline entry from
the booking pre-save hook). Customer resolution and payment-proof upload
are elided. -/
def createBooking (slots : List Slot) (storeId : Nat) (bookingEnabled : Bool)
    (req : BookingRequest) : Except AppError Booking :=
  if ¬ (truthyS req.customerEmail && truthyS req.customerName && truthyS req.customerPhone) then
    Except.error ⟨"Customer information is required", 400⟩
  else
    match req.slotId with
    | none => Except.error ⟨"Booking slot is required", 400⟩
    | some slotId =>
      if req.startDate.isNone || req.endDate.isNone then
        Except.error ⟨"Booking dates are required", 400⟩
      else if ¬ bookingEnabled then
        Except.error ⟨"Bookings are not enabled for this store", 400⟩
      else
        match slots.find? (fun s => s.sid = slotId) with
        | none => Except.error ⟨"Booking slot not found", 404⟩
        | some slot =>
          if slot.storeId ≠ storeId then
            Except.error ⟨"Booking slot does not belong to this store", 403⟩
          else if slot.status ≠ "active" then
            Except.error ⟨"Booking slot is not available", 400⟩
          else
            let calculatedSubtotal := (truthyQ req.clientSubtotal).getD slot.price
            let calculatedDiscount := (truthyQ req.discountApplied).getD 0
            let calculatedTotal :=
              (truthyQ req.clientTotal).getD (calculatedSubtotal - calculatedDiscount)
            Except.ok
              { storeId := storeId
              , slotId := slot.sid
              , pricing := ⟨calculatedSubtotal, 0, calculatedDiscount, calculatedTotal⟩
              , status := "pending"
              , payment :=
                  { method := req.paymentMethod.getD "bank_transfer"
                  , status := "pending"
                  , amount := some calculatedTotal
                  , refundedAmount := 0
                  , refunds := [] }
              , timeline := [(⟨"pending", "Booking created"⟩ : TimelineEntry)] }

/-- An error surfaced by a transactional attempt: a driver error with a
numeric `code`, a driver error with the transient `codeName` marker, an
`AppError` raised by the operation body, or the error a store without
transaction support raises. -/
inductive TxError
  | code (c : Nat) (msg : String)
  | transientMarker (msg : String)
  | app (statusCode : Nat) (msg : String)
  | txnNotSupported (msg : String)
deriving DecidableEq, Repr, Inhabited

/-- The retryability test of `retryTransaction` (part_008 lines 41-44):
`error.code === 251 || error.code === 50 || error.code === 112 ||
error.codeName === 'TransientTransactionError'`. -/
def isRetryable : TxError → Bool
  | TxError.code 251 _ => true
  | TxError.code 50 _ => true
  | TxError.code 112 _ => true
  | TxError.transientMarker _ => true
  | _ => false

/-- Whether an error is the marker of a store without transaction
support. No branch of the source tests for it. -/
def isTxnNotSupported : TxError → Bool
  | TxError.txnNotSupported _ => true
  | _ => false

/-- `Math.min(1000 * Math.pow(2, attempt - 1), 5000)` (part_008 line 56). -/
def backoffWait (attempt : Nat) : Nat :=
  min (1000 * 2 ^ (attempt - 1)) 5000

/-- Trace of one `retryTransaction` run: final result, number of attempts
actually executed, and the backoff waits slept between attempts. -/
structure RetryTrace (α : Type) where
  result : Except TxError α
  attemptsUsed : Nat
  waits : List Nat
deriving Repr

/-- The loop body of `retryTransaction` (part_008 lines 17-75) from a
given attempt number with a given number of attempts remaining
(including the current one). The operation is embedded as the outcome it
produces on each attempt number. On an error the loop retries only when
the error is retryable and attempts remain, sleeping the exponential
backoff first; otherwise it rethrows the last error. -/
def retryGo {α : Type} (op : Nat → Except TxError α) : Nat → Nat → RetryTrace α
  | _, 0 => ⟨Except.error (TxError.app 500 "no attempts"), 0, []⟩
  | attempt, remaining + 1 =>
    match op attempt with
    | Except.ok a => ⟨Except.ok a, 1, []⟩
    | Except.error e =>
      if isRetryable e && remaining ≠ 0 then
        let t := retryGo op (attempt + 1) remaining
        ⟨t.result, t.attemptsUsed + 1, backoffWait attempt :: t.waits⟩
      else
        ⟨Except.error e, 1, []⟩

/-- `retryTransaction(operation, maxRetries)`: attempts start at 1. The
source is always called with the default `maxRetries = 3`. -/
def retryTransaction {α : Type} (op : Nat → Except TxError α) (maxRetries : Nat) : RetryTrace α :=
  retryGo op 1 maxRetries

/-- How a create-order request was ultimately served. -/
inductive ServeOutcome (α : Type)
  | servedTx (a : α)
  | servedFallback (a : α)
  | failed (e : TxError)
deriving DecidableEq, Repr

/-- The dispatch of `exports.createOrder` (part_008 lines 537-895): run
the transactional body under `retryTransaction(·, 3)`; if that throws —
for any reason — run `createOrderWithoutTransaction` and serve its
result, surfacing its error if it also fails. -/
def createOrderEntry {α : Type} (txOp : Nat → Except TxError α)
    (fallback : Except TxError α) : ServeOutcome α :=
  match (retryTransaction txOp 3).result with
  | Except.ok a => ServeOutcome.servedTx a
  | Except.error _ =>
    match fallback with
    | Except.ok a => ServeOutcome.servedFallback a
    | Except.error e => ServeOutcome.failed e

theorem processItems_sum (items : List ReqItem) :
    ∀ db db' pis sub, processItems db items = Except.ok (db', pis, sub) →
      (pis.map OrderItem.totalPrice).sum = sub := by
  induction items with
  | nil =>
    intro db db' pis sub h
    simp only [processItems] at h
    cases h
    simp
  | cons item rest ih =>
    intro db db' pis sub h
    simp only [processItems] at h
    split at h
    · cases h
    · rename_i product hf
      split at h
      · cases h
      · split at h
        · cases h
        · rename_i up hup
          split at h
          · cases h
          · split at h
            · cases h
            · rename_i db2 pis' sub' hrest
              cases h
              simp only [List.map_cons, List.sum_cons]
              rw [ih _ _ _ _ hrest]

/-- C1: every order produced by `buildOrder` (the persisted-order
computation shared by the transactional path of `createOrder` and by the
`createOrderWithoutTransaction` fallback) satisfies
`pricing.total = pricing.subtotal + pricing.tax + pricing.shipping - pricing.discount`
exactly, and `pricing.subtotal` is exactly the sum of the persisted
items' `totalPrice` values. -/
theorem C1_persisted_pricing_reconciles (db : Catalog) (req : OrderRequest)
    (db' : Catalog) (o : Order) (h : buildOrder db req = Except.ok (db', o)) :
    o.pricing.total =
      o.pricing.subtotal + o.pricing.tax + o.pricing.shipping - o.pricing.discount
    ∧ (o.items.map OrderItem.totalPrice).sum = o.pricing.subtotal := by
  simp only [buildOrder] at h
  split at h
  · cases h
  · split at h
    · cases h
    · rename_i its
      split at h
      · cases h
      · split at h
        · cases h
        · split at h
          · cases h
          · cases h
            exact ⟨rfl, processItems_sum _ _ _ _ _ (by assumption)⟩

/-- Sample catalog for the C1 witness: one product, price 1000, stock 5. -/
def c1Catalog : Catalog := [⟨1, "Tee", some 1000, none, 5, []⟩]

/-- Sample request for the C1 witness: 2 units of product 1, delivery fee
200, no discount, no client figures. -/
def c1Req : OrderRequest :=
  ⟨some "a@b.com", some "Ada", some "080", some [⟨1, none, none, none, 2⟩],
   some 200, none, none, none, none, none⟩

/-- The order the C1 witness request produces. -/
def c1Result : Catalog × Order :=
  match buildOrder c1Catalog c1Req with
  | Except.ok p => p
  | Except.error _ => default

theorem C1_persisted_pricing_reconciles_witness :
    (c1Result.2).pricing.total =
      (c1Result.2).pricing.subtotal + (c1Result.2).pricing.tax +
        (c1Result.2).pricing.shipping - (c1Result.2).pricing.discount
    ∧ ((c1Result.2).items.map OrderItem.totalPrice).sum = (c1Result.2).pricing.subtotal :=
  C1_persisted_pricing_reconciles c1Catalog c1Req c1Result.1 c1Result.2 (by
    simp only [c1Result]
    simp [c1Catalog, c1Req, buildOrder, validCustomer, truthyS, processItems, truthyQ,
      findProduct, resolveUnitPrice, resolveVariantSelection, saveProduct, pricingMismatch]
    norm_num)

theorem findProduct_saveProduct (db : Catalog) (q : Product) (pid : Nat) :
    findProduct (saveProduct db q) pid =
      if q.pid = pid then (findProduct db pid).map (fun _ => q) else findProduct db pid := by
  induction db with
  | nil => simp [findProduct, saveProduct]
  | cons p rest ih =>
    simp only [findProduct, saveProduct, List.map_cons, List.find?_cons] at *
    by_cases h1 : p.pid = q.pid
    · by_cases h2 : q.pid = pid
      · have h3 : p.pid = pid := h1.trans h2
        simp_all
      · have h3 : ¬ p.pid = pid := fun hc => h2 (h1.symm.trans hc)
        simp_all
    · by_cases h2 : p.pid = pid
      · have h4 : ¬ q.pid = pid := fun hc => h1 (h2.trans hc.symm)
        simp_all
      · simp_all

/-- Total quantity the request demands on one product id. -/
def demandOn (items : List ReqItem) (pid : Nat) : ℚ :=
  ((items.filter (fun it => it.productId = pid)).map ReqItem.quantity).sum

theorem processItems_inventory (items : List ReqItem) :
    ∀ db db' pis sub, processItems db items = Except.ok (db', pis, sub) →
      ∀ pid p, findProduct db pid = some p →
        ∃ p', findProduct db' pid = some p' ∧
          p'.inventory = p.inventory - demandOn items pid := by
  induction items with
  | nil =>
    intro db db' pis sub h pid p hp
    simp only [processItems] at h
    cases h
    exact ⟨p, hp, by simp [demandOn]⟩
  | cons item rest ih =>
    intro db db' pis sub h pid p hp
    simp only [processItems] at h
    split at h
    · cases h
    · rename_i product hf
      have hpid : product.pid = item.productId := by
        have := List.find?_some hf
        simpa using this
      split at h
      · cases h
      · split at h
        · cases h
        · rename_i up hup
          split at h
          · cases h
          · split at h
            · cases h
            · rename_i db2 pis' sub' hrest
              cases h
              have hstep := findProduct_saveProduct db
                { product with inventory := product.inventory - item.quantity } pid
              by_cases hc : item.productId = pid
              · have hp2 : p = product := by
                  rw [← hc] at hp
                  rw [hp] at hf; cases hf; rfl
                rw [if_pos (hpid.trans hc)] at hstep
                rw [hp] at hstep
                simp only [Option.map_some'] at hstep
                obtain ⟨p', hp', hinv⟩ := ih _ _ _ _ hrest pid _ hstep
                refine ⟨p', hp', ?_⟩
                have hd : demandOn (item :: rest) pid = item.quantity + demandOn rest pid := by
                  simp only [demandOn, List.filter_cons]
                  rw [if_pos (by simp [hc])]
                  simp
                rw [hinv, hp2, hd]
                show product.inventory - item.quantity - demandOn rest pid
                  = product.inventory - (item.quantity + demandOn rest pid)
                ring
              · rw [if_neg (fun h2 => hc (hpid.symm.trans h2))] at hstep
                rw [hp] at hstep
                obtain ⟨p', hp', hinv⟩ := ih _ _ _ _ hrest pid _ hstep
                refine ⟨p', hp', ?_⟩
                have hd : demandOn (item :: rest) pid = demandOn rest pid := by
                  simp only [demandOn, List.filter_cons]
                  rw [if_neg (by simp [hc])]
                rw [hinv, hd]

theorem processItems_nonneg (items : List ReqItem) :
    ∀ db db' pis sub,
      (∀ pid p, findProduct db pid = some p → 0 ≤ p.inventory) →
      processItems db items = Except.ok (db', pis, sub) →
      ∀ pid p', findProduct db' pid = some p' → 0 ≤ p'.inventory := by
  induction items with
  | nil =>
    intro db db' pis sub hnn h
    simp only [processItems] at h
    cases h
    exact hnn
  | cons item rest ih =>
    intro db db' pis sub hnn h
    simp only [processItems] at h
    split at h
    · cases h
    · rename_i product hf
      split at h
      · cases h
      · rename_i hlt
        split at h
        · cases h
        · rename_i up hup
          split at h
          · cases h
          · split at h
            · cases h
            · rename_i db2 pis' sub' hrest
              cases h
              apply ih _ _ _ _ _ hrest
              intro pid p hp
              have hstep := findProduct_saveProduct db
                { product with inventory := product.inventory - item.quantity } pid
              rw [hstep] at hp
              by_cases hc : product.pid = pid
              · rw [if_pos hc] at hp
                cases hdb : findProduct db pid with
                | none => rw [hdb] at hp; cases hp
                | some p0 =>
                  rw [hdb] at hp
                  simp only [Option.map_some'] at hp
                  cases hp
                  show 0 ≤ product.inventory - item.quantity
                  have hq : item.quantity ≤ product.inventory := not_lt.mp hlt
                  linarith
              · rw [if_neg hc] at hp
                exact hnn pid p hp

/-- Sample catalog for the C2 witness: one product with stock 5. -/
def c2Catalog : Catalog := [⟨1, "Mug", some 500, none, 5, []⟩]

/-- Sample items for the C2 witness: 2 units of product 1. -/
def c2Items : List ReqItem := [⟨1, none, none, none, 2⟩]

/-- Result of the C2 witness item loop. -/
def c2Res : Catalog × List OrderItem × ℚ :=
  match processItems c2Catalog c2Items with
  | Except.ok t => t
  | Except.error _ => default

@[simp] theorem setStatus_status (o : Order) (s : String) : (o.setStatus s).status = s := rfl

@[simp] theorem setStatus_payment (o : Order) (s : String) :
    (o.setStatus s).payment = o.payment := rfl

@[simp] theorem setStatus_timeline (o : Order) (s : String) :
    (o.setStatus s).timeline = o.timeline := rfl

@[simp] theorem setPaymentStatus_status (o : Order) (s : String) :
    (o.setPaymentStatus s).status = o.status := rfl

@[simp] theorem setPaymentStatus_paymentStatus (o : Order) (s : String) :
    (o.setPaymentStatus s).payment.status = s := rfl

@[simp] theorem setPaymentStatus_refunds (o : Order) (s : String) :
    (o.setPaymentStatus s).payment.refunds = o.payment.refunds := rfl

@[simp] theorem setPaymentStatus_refundedAmount (o : Order) (s : String) :
    (o.setPaymentStatus s).payment.refundedAmount = o.payment.refundedAmount := rfl

@[simp] theorem setPaymentStatus_timeline (o : Order) (s : String) :
    (o.setPaymentStatus s).timeline = o.timeline := rfl

@[simp] theorem setPaymentStatus_statusModified (o : Order) (s : String) :
    (o.setPaymentStatus s).statusModified = o.statusModified := rfl

@[simp] theorem saveExisting_payment (o : Order) : o.saveExisting.payment = o.payment := by
  unfold Order.saveExisting
  split <;> rfl

@[simp] theorem saveExisting_status (o : Order) : o.saveExisting.status = o.status := by
  unfold Order.saveExisting
  split <;> rfl

theorem saveExisting_timeline (o : Order) :
    o.saveExisting.timeline =
      if o.statusModified then
        o.timeline ++ [(⟨o.status, "Status changed"⟩ : TimelineEntry)]
      else o.timeline := by
  unfold Order.saveExisting
  split <;> simp_all

/-- C3: `processRefund` rejects a request whose amount is non-positive or
exceeds the refundable balance with a 400 error (the stored order is
untouched: an error result carries no updated order); on acceptance it
appends exactly one refund record of that amount, adds the amount to
`payment.refundedAmount`, sets both `payment.status` and the order status
to `refunded` when the new refund total reaches `payment.amount` and to
`partially_refunded` otherwise, and the new refund total never exceeds
`payment.amount`. -/
theorem C3_processRefund_guard (o : Order) (amount : ℚ) (r m : String) :
    ((amount ≤ 0 ∨ o.calculateRefundAmount < amount) →
      ∃ e, processRefund o amount r m = Except.error e ∧ e.statusCode = 400)
    ∧ (∀ o' info a, processRefund o amount r m = Except.ok (o', info) →
        o.payment.amount = some a →
        o'.payment.refunds = o.payment.refunds ++ [(⟨amount, r, m⟩ : RefundRecord)]
        ∧ o'.payment.refundedAmount = o.payment.refundedAmount + amount
        ∧ (a ≤ o'.payment.refundedAmount →
            o'.payment.status = "refunded" ∧ o'.status = "refunded")
        ∧ (o'.payment.refundedAmount < a →
            o'.payment.status = "partially_refunded" ∧ o'.status = "partially_refunded")
        ∧ o'.payment.refundedAmount ≤ a) := by
  constructor
  · intro h
    simp only [processRefund]
    by_cases h1 : o.canBeRefunded
    · rw [if_neg (by simp [h1])]
      by_cases h2 : amount ≤ 0
      · rw [if_pos h2]
        exact ⟨_, rfl, rfl⟩
      · have h3 : o.calculateRefundAmount < amount := h.resolve_left h2
        rw [if_neg h2]
        by_cases h4 : o.calculateRefundAmount ≤ 0
        · rw [if_pos h4]
          exact ⟨_, rfl, rfl⟩
        · rw [if_neg h4, if_pos h3]
          exact ⟨_, rfl, rfl⟩
    · rw [if_pos (by simp [h1])]
      exact ⟨_, rfl, rfl⟩
  · intro o' info a hok ha
    simp only [processRefund] at hok
    split at hok
    · cases hok
    · rename_i h1
      have hcan : o.canBeRefunded = true := by
        by_contra hc
        exact h1 (by simp [hc])
      split at hok
      · cases hok
      · rename_i h2
        split at hok
        · cases hok
        · rename_i h3
          split at hok
          · cases hok
          · rename_i h4
            have hpos : 0 < o.calculateRefundAmount := lt_of_not_le h3
            have hle : amount ≤ o.calculateRefundAmount := le_of_not_lt h4
            have hax : 0 < a - o.payment.refundedAmount := by
              by_contra hcon
              push_neg at hcon
              have hz : o.calculateRefundAmount = 0 := by
                unfold Order.calculateRefundAmount
                rw [ha]
                simp only [Option.getD_some]
                exact max_eq_right hcon
              rw [hz] at hpos
              exact lt_irrefl 0 hpos
            have hcalc : o.calculateRefundAmount = a - o.payment.refundedAmount := by
              unfold Order.calculateRefundAmount
              rw [ha]
              simp only [Option.getD_some]
              exact max_eq_left (le_of_lt hax)
            have hbound : o.payment.refundedAmount + amount ≤ a := by
              rw [hcalc] at hle
              linarith
            have hstat : o.status ≠ "refunded" := by
              intro hcontra
              simp only [Order.canBeRefunded, Bool.and_eq_true, decide_eq_true_eq,
                Bool.or_eq_true, hcontra] at hcan
              simp at hcan
            rw [Except.ok.injEq, Prod.mk.injEq] at hok
            obtain ⟨ho, hi⟩ := hok
            subst ho
            rw [ha]
            simp only [Option.getD_some]
            by_cases hfull : a ≤ o.payment.refundedAmount + amount
            · rw [if_pos (by simpa using hfull)]
              refine ⟨by simp, by simp, ?_, ?_, ?_⟩
              · intro _
                constructor <;> simp
              · intro hlt2
                simp only [saveExisting_payment] at hlt2
                exact absurd hfull (by simp at hlt2; linarith)
              · simpa using hbound
            · rw [if_neg (by simpa using hfull)]
              rw [if_pos (by simpa using hstat)]
              refine ⟨by simp, by simp, ?_, ?_, ?_⟩
              · intro hge
                simp only [saveExisting_payment] at hge
                simp at hge
                exact absurd hge (by simpa using hfull)
              · intro _
                constructor <;> simp
              · simpa using hbound

/-- Sample order for the C3 witness: delivered, payment completed,
amount 2700, nothing refunded yet. -/
def c3Order : Order :=
  { items := []
  , pricing := ⟨2500, 0, 200, 0, 2700⟩
  , payment := ⟨"card", "completed", some 2700, 0, []⟩
  , status := "delivered"
  , timeline := [⟨"pending", "Order created"⟩, ⟨"delivered", "Status updated"⟩]
  , statusModified := false }

/-- Result of the C3 witness refund of the full 2700. -/
def c3Res : Order × RefundInfo :=
  match processRefund c3Order 2700 "requested" "original" with
  | Except.ok p => p
  | Except.error _ => default

theorem C3_processRefund_guard_witness :
    (c3Res.1).payment.refunds =
      c3Order.payment.refunds ++ [(⟨2700, "requested", "original"⟩ : RefundRecord)]
    ∧ (c3Res.1).payment.refundedAmount = c3Order.payment.refundedAmount + 2700
    ∧ ((2700 : ℚ) ≤ (c3Res.1).payment.refundedAmount →
        (c3Res.1).payment.status = "refunded" ∧ (c3Res.1).status = "refunded")
    ∧ ((c3Res.1).payment.refundedAmount < 2700 →
        (c3Res.1).payment.status = "partially_refunded"
        ∧ (c3Res.1).status = "partially_refunded")
    ∧ (c3Res.1).payment.refundedAmount ≤ 2700 :=
  (C3_processRefund_guard c3Order 2700 "requested" "original").2 c3Res.1 c3Res.2 2700
    (by
      simp only [c3Res]
      norm_num [c3Order, processRefund, Order.canBeRefunded, Order.calculateRefundAmount,
        Order.setStatus, Order.setPaymentStatus, Order.saveExisting])
    rfl

/-- Sample order for the C4 counterexample and witness: freshly loaded
(`statusModified = false`), status `pending`, timeline of length 1. -/
def c4Order : Order :=
  { items := []
  , pricing := ⟨100, 0, 0, 0, 100⟩
  , payment := ⟨"cash", "pending", some 100, 0, []⟩
  , status := "pending"
  , timeline := [⟨"pending", "Order created"⟩]
  , statusModified := false }

theorem C4_counterexample :
    ¬ ((c4Order.updateStatus "confirmed" none).timeline.length =
        c4Order.timeline.length + 1) := by
  simp [c4Order, Order.updateStatus, Order.setStatus, Order.saveExisting]

theorem canBeRefunded_status_ne (o : Order) (h : o.canBeRefunded = true) :
    o.status ≠ "refunded" := by
  intro hcontra
  simp only [Order.canBeRefunded, Bool.and_eq_true, decide_eq_true_eq,
    Bool.or_eq_true, hcontra] at h
  simp at h

/-- C4 (amended): `updateStatus` itself pushes one timeline entry and its
`save()` runs the pre-save hook, which pushes a second entry whenever the
status value actually changed — so on a clean document the timeline grows
by exactly 2 when the new status differs from the current one and by
exactly 1 when it is the same; an accepted `processRefund` likewise grows
the timeline by 2, except a partial refund of an order already in
`partially_refunded` (no status change), which grows it by 1. In every
case, and after creation (timeline length exactly 1), the most recent
timeline entry's status equals the entity's current status. -/
theorem C4_timeline_growth :
    (∀ (o : Order) (s : String) (n : Option String), o.statusModified = false →
      (o.updateStatus s n).timeline.length =
        o.timeline.length + (if s = o.status then 1 else 2)
      ∧ ((o.updateStatus s n).timeline.getLast?).map TimelineEntry.status =
          some (o.updateStatus s n).status)
    ∧ (∀ (o : Order) (amount : ℚ) (r m : String) (o' : Order) (info : RefundInfo),
        processRefund o amount r m = Except.ok (o', info) → o.statusModified = false →
        o'.timeline.length = o.timeline.length +
          (if o.payment.amount.getD o.pricing.total ≤ o.payment.refundedAmount + amount
           then 2
           else if o.status = "partially_refunded" then 1 else 2)
        ∧ (o'.timeline.getLast?).map TimelineEntry.status = some o'.status)
    ∧ (∀ db req db' o, buildOrder db req = Except.ok (db', o) →
        o.timeline.length = 1
        ∧ (o.timeline.getLast?).map TimelineEntry.status = some o.status) := by
  refine ⟨?_, ?_, ?_⟩
  · intro o s n hmod
    by_cases hss : s = o.status
    · have hm2 : ((o.setStatus s).statusModified) = false := by
        simp [Order.setStatus, hmod, hss]
      constructor
      · simp [Order.updateStatus, Order.saveExisting, Order.setStatus, hmod, hss]
      · simp [Order.updateStatus, Order.saveExisting, Order.setStatus, hmod, hss,
          List.getLast?_concat]
    · constructor
      · simp [Order.updateStatus, Order.saveExisting, Order.setStatus, hmod, hss]
      · simp [Order.updateStatus, Order.saveExisting, Order.setStatus, hmod, hss,
          List.getLast?_concat]
  · intro o amount r m o' info hok hmod
    simp only [processRefund] at hok
    split at hok
    · cases hok
    · rename_i h1
      have hcan : o.canBeRefunded = true := by
        by_contra hc
        exact h1 (by simp [hc])
      have hstat : o.status ≠ "refunded" := canBeRefunded_status_ne o hcan
      split at hok
      · cases hok
      · split at hok
        · cases hok
        · split at hok
          · cases hok
          · rw [Except.ok.injEq, Prod.mk.injEq] at hok
            obtain ⟨ho, hi⟩ := hok
            subst ho
            by_cases hfull :
                o.payment.amount.getD o.pricing.total ≤ o.payment.refundedAmount + amount
            · have hm2 : ("refunded" : String) ≠ o.status := fun hc => hstat hc.symm
              constructor
              · simp [Order.saveExisting, Order.setStatus, Order.setPaymentStatus,
                  hmod, hm2, hfull]
              · simp [Order.saveExisting, Order.setStatus, Order.setPaymentStatus,
                  hmod, hm2, hfull, List.getLast?_concat]
            · by_cases hpr : o.status = "partially_refunded"
              · constructor
                · simp [Order.saveExisting, Order.setStatus, Order.setPaymentStatus,
                    hmod, hfull, hpr, hstat]
                · simp [Order.saveExisting, Order.setStatus, Order.setPaymentStatus,
                    hmod, hfull, hpr, hstat, List.getLast?_concat]
              · have hm2 : ("partially_refunded" : String) ≠ o.status :=
                  fun hc => hpr hc.symm
                constructor
                · simp [Order.saveExisting, Order.setStatus, Order.setPaymentStatus,
                    hmod, hfull, hpr, hm2, hstat]
                · simp [Order.saveExisting, Order.setStatus, Order.setPaymentStatus,
                    hmod, hfull, hpr, hm2, hstat, List.getLast?_concat]
  · intro db req db' o h
    simp only [buildOrder] at h
    split at h
    · cases h
    · split at h
      · cases h
      · split at h
        · cases h
        · split at h
          · cases h
          · split at h
            · cases h
            · cases h
              constructor <;> rfl

theorem C4_timeline_growth_witness :
    (c4Order.updateStatus "confirmed" none).timeline.length =
      c4Order.timeline.length + (if ("confirmed" : String) = c4Order.status then 1 else 2)
    ∧ ((c4Order.updateStatus "confirmed" none).timeline.getLast?).map TimelineEntry.status =
        some (c4Order.updateStatus "confirmed" none).status :=
  C4_timeline_growth.1 c4Order "confirmed" none rfl

/-- C5: for both orders and bookings, when `payment.amount` is present
the refundable balance computed by `calculateRefundAmount` — the value
used by both `canBeRefunded` and the `processRefund` validation — equals
`max(payment.amount - payment.refundedAmount, 0)`. -/
theorem C5_remaining_refundable (o : Order) (b : Booking) (a c : ℚ) :
    (o.payment.amount = some a →
      o.calculateRefundAmount = max (a - o.payment.refundedAmount) 0)
    ∧ (b.payment.amount = some c →
      b.calculateRefundAmount = max (c - b.payment.refundedAmount) 0) := by
  constructor
  · intro ha
    unfold Order.calculateRefundAmount
    rw [ha]
    rfl
  · intro hc
    unfold Booking.calculateRefundAmount
    rw [hc]
    rfl

/-- Sample booking for the C5 witness. -/
def c5Booking : Booking :=
  { storeId := 10
  , slotId := 3
  , pricing := ⟨900, 0, 0, 900⟩
  , payment := ⟨"bank_transfer", "completed", some 900, 250, []⟩
  , status := "completed"
  , timeline := [⟨"pending", "Booking created"⟩] }

theorem C5_remaining_refundable_witness :
    c3Order.calculateRefundAmount = max ((2700 : ℚ) - c3Order.payment.refundedAmount) 0
    ∧ c5Booking.calculateRefundAmount = max ((900 : ℚ) - c5Booking.payment.refundedAmount) 0 :=
  ⟨(C5_remaining_refundable c3Order c5Booking 2700 900).1 rfl,
   (C5_remaining_refundable c3Order c5Booking 2700 900).2 rfl⟩

@[simp] theorem updateStatus_status (o : Order) (s : String) (n : Option String) :
    (o.updateStatus s n).status = s := by
  simp [Order.updateStatus]

/-- Total quantity an order's items carry against one product id. -/
def demandOnOrder (items : List OrderItem) (pid : Nat) : ℚ :=
  ((items.filter (fun it => it.productId = pid)).map OrderItem.quantity).sum

theorem restoreInventory_find (items : List OrderItem) :
    ∀ db pid p, findProduct db pid = some p →
      ∃ p', findProduct (restoreInventory db items) pid = some p' ∧
        p'.inventory = p.inventory + demandOnOrder items pid := by
  induction items with
  | nil =>
    intro db pid p hp
    exact ⟨p, hp, by simp [restoreInventory, demandOnOrder]⟩
  | cons it rest ih =>
    intro db pid p hp
    simp only [restoreInventory]
    by_cases hc : it.productId = pid
    · rw [← hc] at hp
      rw [hp]
      have hpid : p.pid = it.productId := by simpa using List.find?_some hp
      have hstep := findProduct_saveProduct db
        { p with inventory := p.inventory + it.quantity } pid
      rw [if_pos (hpid.trans hc)] at hstep
      rw [← hc, hp, Option.map_some'] at hstep
      rw [hc] at hstep
      obtain ⟨p', hp', hinv⟩ := ih _ pid _ hstep
      refine ⟨p', hp', ?_⟩
      have hd : demandOnOrder (it :: rest) pid = it.quantity + demandOnOrder rest pid := by
        simp only [demandOnOrder, List.filter_cons]
        rw [if_pos (by simp [hc])]
        simp
      rw [hinv, hd]
      show p.inventory + it.quantity + demandOnOrder rest pid
        = p.inventory + (it.quantity + demandOnOrder rest pid)
      ring
    · have hd : demandOnOrder (it :: rest) pid = demandOnOrder rest pid := by
        simp only [demandOnOrder, List.filter_cons]
        rw [if_neg (by simp [hc])]
      rw [hd]
      cases hf : findProduct db it.productId with
      | none => exact ih _ pid _ hp
      | some p0 =>
        have hpid0 : p0.pid = it.productId := by simpa using List.find?_some hf
        have hstep := findProduct_saveProduct db
          { p0 with inventory := p0.inventory + it.quantity } pid
        rw [if_neg (fun h2 => hc (hpid0.symm.trans h2))] at hstep
        rw [hp] at hstep
        exact ih _ pid _ hstep

/-- Sample catalog for the C6 witness: product 1 with stock 3. -/
def c6Catalog : Catalog := [⟨1, "Cap", some 500, none, 3, []⟩]

/-- Sample cancellable order for the C6 witness: 2 units of product 1. -/
def c6Order : Order :=
  { items := [⟨1, none, 2, 500, 1000⟩]
  , pricing := ⟨1000, 0, 0, 0, 1000⟩
  , payment := ⟨"cash", "pending", some 1000, 0, []⟩
  , status := "pending"
  , timeline := [⟨"pending", "Order created"⟩]
  , statusModified := false }

/-- Result of the C6 witness cancellation. -/
def c6Res : Catalog × Order :=
  match cancelOrder c6Catalog c6Order none none with
  | Except.ok p => p
  | Except.error _ => default

/-- C7: order creation fails with a 400 error when a resolved unit price
is absent/non-positive (given the item is reached: product found, stock
sufficient) or when the computed total is non-positive; and the persisted
pricing block is built from the server-computed subtotal and total only —
the result of `buildOrder` does not depend on the client-supplied
`subtotal`/`total` at all (they are compared and logged only), so in
particular a mismatch beyond 1 currency unit never reaches the persisted
record. -/
theorem C7_pricing_rejection_and_server_wins :
    (∀ db (req : OrderRequest) s t,
      buildOrder db { req with clientSubtotal := s, clientTotal := t } = buildOrder db req)
    ∧ (∀ db (item : ReqItem) rest p, findProduct db item.productId = some p →
        ¬ (p.inventory < item.quantity) →
        unitPriceInvalid (resolveUnitPrice p item) = true →
        processItems db (item :: rest) = Except.error ⟨"Invalid unit price", 400⟩)
    ∧ (∀ db (req : OrderRequest) its db1 pis sub, validCustomer req = true →
        req.items = some its → its ≠ [] →
        processItems db its = Except.ok (db1, pis, sub) →
        sub + 0 + (truthyQ req.deliveryFee).getD 0 - (truthyQ req.discountApplied).getD 0 ≤ 0 →
        buildOrder db req = Except.error ⟨"Invalid order total calculation", 400⟩)
    ∧ (∀ db (req : OrderRequest) its db1 pis sub db' o,
        req.items = some its →
        processItems db its = Except.ok (db1, pis, sub) →
        buildOrder db req = Except.ok (db', o) →
        o.pricing.subtotal = sub
        ∧ o.pricing.total =
            sub + 0 + (truthyQ req.deliveryFee).getD 0 -
              (truthyQ req.discountApplied).getD 0) := by
  refine ⟨?_, ?_, ?_, ?_⟩
  · intro db req s t
    rfl
  · intro db item rest p hf hinv hbad
    simp only [processItems, hf]
    rw [if_neg hinv]
    cases hup : resolveUnitPrice p item with
    | none => rfl
    | some q =>
      have hq : q ≤ 0 := by
        rw [hup] at hbad
        simpa [unitPriceInvalid] using hbad
      simp [hq]
  · intro db req its db1 pis sub hvc hits hne hpe hle
    simp only [buildOrder, hvc, hits]
    simp only [if_neg (by simp [hne] : ¬ its = [])]
    simp only [hpe]
    rw [if_neg (by simp), if_pos hle]
  · intro db req its db1 pis sub db' o hits hpe hok
    simp only [buildOrder, hits, hpe] at hok
    split at hok
    · cases hok
    · split at hok
      · cases hok
      · split at hok
        · cases hok
        · rw [Except.ok.injEq, Prod.mk.injEq] at hok
          obtain ⟨hdb, ho⟩ := hok
          subst ho
          exact ⟨rfl, rfl⟩

/-- Result of the C7 witness item loop on the C1 sample data. -/
def c7ItemsRes : Catalog × List OrderItem × ℚ :=
  match processItems c1Catalog [⟨1, none, none, none, 2⟩] with
  | Except.ok t => t
  | Except.error _ => default

theorem C7_pricing_rejection_and_server_wins_witness :
    (buildOrder c1Catalog { c1Req with clientSubtotal := some 9999, clientTotal := some 1 } =
      buildOrder c1Catalog c1Req)
    ∧ ((c1Result.2).pricing.subtotal = c7ItemsRes.2.2
       ∧ (c1Result.2).pricing.total =
           c7ItemsRes.2.2 + 0 + (truthyQ c1Req.deliveryFee).getD 0 -
             (truthyQ c1Req.discountApplied).getD 0) :=
  ⟨C7_pricing_rejection_and_server_wins.1 c1Catalog c1Req (some 9999) (some 1),
   C7_pricing_rejection_and_server_wins.2.2.2 c1Catalog c1Req
     [⟨1, none, none, none, 2⟩] c7ItemsRes.1 c7ItemsRes.2.1 c7ItemsRes.2.2
     c1Result.1 c1Result.2 rfl
     (by
       simp only [c7ItemsRes]
       norm_num [c1Catalog, processItems, findProduct, truthyQ,
         resolveUnitPrice, resolveVariantSelection, saveProduct])
     (by
       simp only [c1Result]
       simp [c1Catalog, c1Req, buildOrder, validCustomer, truthyS, processItems, truthyQ,
         findProduct, resolveUnitPrice, resolveVariantSelection, saveProduct, pricingMismatch]
       norm_num)⟩

theorem retryGo_attempts_le {α : Type} (op : Nat → Except TxError α) :
    ∀ remaining attempt, (retryGo op attempt remaining).attemptsUsed ≤ remaining := by
  intro remaining
  induction remaining with
  | zero => intro attempt; simp [retryGo]
  | succ r ih =>
    intro attempt
    simp only [retryGo]
    split
    · simp
    · split
      · have := ih (attempt + 1)
        simp only []
        omega
      · simp

theorem retryGo_attempts_pos {α : Type} (op : Nat → Except TxError α) :
    ∀ remaining attempt, 1 ≤ remaining → 1 ≤ (retryGo op attempt remaining).attemptsUsed := by
  intro remaining
  induction remaining with
  | zero => intro attempt h; omega
  | succ r ih =>
    intro attempt h
    simp only [retryGo]
    split
    · simp
    · split
      · simp only []
        omega
      · simp

theorem retryGo_waits {α : Type} (op : Nat → Except TxError α) :
    ∀ remaining attempt, (retryGo op attempt remaining).waits =
      (List.range' attempt ((retryGo op attempt remaining).attemptsUsed - 1)).map
        backoffWait := by
  intro remaining
  induction remaining with
  | zero => intro attempt; simp [retryGo]
  | succ r ih =>
    intro attempt
    simp only [retryGo]
    split
    · simp
    · split
      · rename_i e hr
        have hr2 : r ≠ 0 := by
          rcases Bool.and_eq_true _ _ |>.mp hr with ⟨_, hx⟩
          simpa using hx
        have hpos : 1 ≤ (retryGo op (attempt + 1) r).attemptsUsed :=
          retryGo_attempts_pos op r (attempt + 1) (by omega)
        obtain ⟨k, hk⟩ : ∃ k, (retryGo op (attempt + 1) r).attemptsUsed = k + 1 :=
          ⟨(retryGo op (attempt + 1) r).attemptsUsed - 1, by omega⟩
        simp only []
        rw [ih (attempt + 1), hk]
        simp only [Nat.add_sub_cancel, List.range'_succ, List.map_cons]
      · simp

theorem retryGo_retried {α : Type} (op : Nat → Except TxError α) :
    ∀ remaining attempt j, j < (retryGo op attempt remaining).attemptsUsed - 1 →
      ∃ e, op (attempt + j) = Except.error e ∧ isRetryable e = true := by
  intro remaining
  induction remaining with
  | zero => intro attempt j h; simp [retryGo] at h
  | succ r ih =>
    intro attempt j h
    simp only [retryGo] at h
    split at h
    · simp at h
    · rename_i e hop
      split at h
      · rename_i hr
        simp only [Nat.add_sub_cancel] at h
        cases j with
        | zero =>
          refine ⟨e, by simpa using hop, ?_⟩
          exact (Bool.and_eq_true _ _ |>.mp hr).1
        | succ j2 =>
          have h2 : j2 < (retryGo op (attempt + 1) r).attemptsUsed - 1 := by omega
          obtain ⟨e2, he2, hre2⟩ := ih (attempt + 1) j2 h2
          exact ⟨e2, by rw [show attempt + (j2 + 1) = attempt + 1 + j2 by omega]; exact he2, hre2⟩
      · simp at h

/-- C8 (amended): `retryTransaction` executes at least 1 and at most 3
attempts; between consecutive attempts it sleeps exactly
`min(1000 * 2^(attempt-1), 5000)` milliseconds; an attempt is followed by
another only when it failed with a retryable error (codes 251/50/112 or
the transient-transaction marker). The fallback, however, runs whenever
the transactional path ultimately throws — for any error, including
non-retryable application errors on the first attempt — not only on
retry exhaustion or a store without transaction support. -/
theorem C8_retry_and_fallback :
    (∀ op : Nat → Except TxError Nat,
      1 ≤ (retryTransaction op 3).attemptsUsed ∧ (retryTransaction op 3).attemptsUsed ≤ 3)
    ∧ (∀ op : Nat → Except TxError Nat,
        (retryTransaction op 3).waits =
          (List.range' 1 ((retryTransaction op 3).attemptsUsed - 1)).map
            (fun i => min (1000 * 2 ^ (i - 1)) 5000))
    ∧ (∀ (op : Nat → Except TxError Nat) i, 1 ≤ i →
        i + 1 ≤ (retryTransaction op 3).attemptsUsed →
        ∃ e, op i = Except.error e ∧ isRetryable e = true)
    ∧ (∀ (op : Nat → Except TxError Nat) (fb : Except TxError Nat),
        ((∃ a, createOrderEntry op fb = ServeOutcome.servedFallback a)
          ∨ (∃ e, createOrderEntry op fb = ServeOutcome.failed e))
        ↔ (∃ e, (retryTransaction op 3).result = Except.error e)) := by
  refine ⟨?_, ?_, ?_, ?_⟩
  · intro op
    exact ⟨retryGo_attempts_pos op 3 1 (by omega), retryGo_attempts_le op 3 1⟩
  · intro op
    exact retryGo_waits op 3 1
  · intro op i h1 h2
    have hused := retryGo_attempts_pos op 3 1 (by omega)
    have h3 : i - 1 < (retryGo op 1 3).attemptsUsed - 1 := by
      unfold retryTransaction at h2
      omega
    obtain ⟨e, he, hre⟩ := retryGo_retried op 3 1 (i - 1) h3
    rw [show 1 + (i - 1) = i by omega] at he
    exact ⟨e, he, hre⟩
  · intro op fb
    unfold createOrderEntry
    cases hres : (retryTransaction op 3).result with
    | ok a =>
      simp
    | error e =>
      cases fb with
      | ok b => simp
      | error e2 => simp

/-- The C8 counterexample transactional body: every attempt throws the
(non-retryable) validation `AppError`. -/
def c8Op : Nat → Except TxError Nat :=
  fun _ => Except.error (TxError.app 400 "Customer information is required")

/-- The C8 counterexample fallback outcome. -/
def c8Fallback : Except TxError Nat := Except.ok 7

theorem C8_counterexample :
    createOrderEntry c8Op c8Fallback = ServeOutcome.servedFallback 7
    ∧ (retryTransaction c8Op 3).attemptsUsed = 1
    ∧ (retryTransaction c8Op 3).attemptsUsed ≠ 3
    ∧ (retryTransaction c8Op 3).result =
        Except.error (TxError.app 400 "Customer information is required")
    ∧ isTxnNotSupported (TxError.app 400 "Customer information is required") = false := by
  exact ⟨rfl, rfl, by decide, rfl, rfl⟩

/-- The C8 witness transactional body: a write conflict on attempt 1,
success on attempt 2. -/
def c8wOp : Nat → Except TxError Nat :=
  fun n => if n = 1 then Except.error (TxError.code 112 "write conflict") else Except.ok 42

theorem C8_retry_and_fallback_witness :
    (∃ e, c8wOp 1 = Except.error e ∧ isRetryable e = true)
    ∧ (retryTransaction c8wOp 3).waits =
        (List.range' 1 ((retryTransaction c8wOp 3).attemptsUsed - 1)).map
          (fun i => min (1000 * 2 ^ (i - 1)) 5000) :=
  ⟨C8_retry_and_fallback.2.2.1 c8wOp 1 (by decide) (by decide),
   C8_retry_and_fallback.2.1 c8wOp⟩

/-- C9 (amended): a successfully created booking implies the requested
slot exists, belongs to the requesting store and is `active`, and is
persisted with status `pending`, payment status `pending` and
`pricing.tax = 0`; `pricing.total = pricing.subtotal - pricing.discount`
holds whenever the caller supplies no truthy `total`, but a truthy
client-supplied `total` is persisted as `pricing.total` as-is. -/
theorem C9_createBooking (slots : List Slot) (storeId : Nat) (enabled : Bool)
    (req : BookingRequest) (b : Booking)
    (h : createBooking slots storeId enabled req = Except.ok b) :
    (∃ sid slot, req.slotId = some sid
      ∧ slots.find? (fun s => s.sid = sid) = some slot
      ∧ slot.storeId = storeId ∧ slot.status = "active")
    ∧ b.status = "pending" ∧ b.payment.status = "pending" ∧ b.pricing.tax = 0
    ∧ (truthyQ req.clientTotal = none →
        b.pricing.total = b.pricing.subtotal - b.pricing.discount)
    ∧ (∀ t, truthyQ req.clientTotal = some t → b.pricing.total = t) := by
  simp only [createBooking] at h
  split at h
  · cases h
  · split at h
    · cases h
    · rename_i sid hsid
      split at h
      · cases h
      · split at h
        · cases h
        · split at h
          · cases h
          · rename_i slot hfind
            split at h
            · cases h
            · rename_i hbelong
              split at h
              · cases h
              · rename_i hactive
                cases h
                refine ⟨⟨sid, slot, hsid, hfind, not_not.mp hbelong, not_not.mp hactive⟩,
                  rfl, rfl, rfl, ?_, ?_⟩
                · intro hnone
                  show (truthyQ req.clientTotal).getD _ = _
                  rw [hnone]
                  rfl
                · intro t ht
                  show (truthyQ req.clientTotal).getD _ = _
                  rw [ht]
                  rfl

/-- The C9 sample slot collection: slot 1 of store 10, active, price 100. -/
def c9Slots : List Slot := [⟨1, 10, "active", 100⟩]

/-- The C9 counterexample request: the client supplies `total = 999`. -/
def c9Req : BookingRequest :=
  ⟨some "a@b.com", some "Ada", some "080", some 1, some 0, some 1,
   none, some 999, none, none⟩

/-- The booking the C9 counterexample request produces. -/
def c9Res : Booking :=
  match createBooking c9Slots 10 true c9Req with
  | Except.ok b => b
  | Except.error _ => default

theorem C9_counterexample :
    createBooking c9Slots 10 true c9Req = Except.ok c9Res
    ∧ ¬ (c9Res.pricing.total = c9Res.pricing.subtotal - c9Res.pricing.discount) := by
  constructor
  · simp only [c9Res]
    simp [c9Slots, c9Req, createBooking, truthyS, truthyQ]
  · simp only [c9Res]
    simp [c9Slots, c9Req, createBooking, truthyS, truthyQ]

/-- The C9 witness request: no client pricing figures at all. -/
def c9wReq : BookingRequest :=
  ⟨some "a@b.com", some "Ada", some "080", some 1, some 0, some 1,
   none, none, none, none⟩

/-- The booking the C9 witness request produces. -/
def c9wRes : Booking :=
  match createBooking c9Slots 10 true c9wReq with
  | Except.ok b => b
  | Except.error _ => default

theorem C9_createBooking_witness :
    (∃ sid slot, c9wReq.slotId = some sid
      ∧ c9Slots.find? (fun s => s.sid = sid) = some slot
      ∧ slot.storeId = 10 ∧ slot.status = "active")
    ∧ c9wRes.status = "pending" ∧ c9wRes.payment.status = "pending"
    ∧ c9wRes.pricing.tax = 0
    ∧ (truthyQ c9wReq.clientTotal = none →
        c9wRes.pricing.total = c9wRes.pricing.subtotal - c9wRes.pricing.discount)
    ∧ (∀ t, truthyQ c9wReq.clientTotal = some t → c9wRes.pricing.total = t) :=
  C9_createBooking c9Slots 10 true c9wReq c9wRes (by
    simp only [c9wRes]
    simp [c9Slots, c9wReq, createBooking, truthyS, truthyQ])

/-- C10: a truthy client-supplied `item.price` becomes the resolved unit
price, overriding the variant and product prices (which are reached only
when it is absent or falsy); the only server-side check applied to it is
the positivity test of the `isNaN(unitPrice) || unitPrice <= 0` guard;
and on a successful item loop it is persisted as the item's `unitPrice`
and feeds `totalPrice = unitPrice * quantity`. -/
theorem C10_client_price_wins (product : Product) (item : ReqItem) (p : ℚ)
    (hp : item.price = some p) (hnz : p ≠ 0) :
    resolveUnitPrice product item = some p
    ∧ unitPriceInvalid (resolveUnitPrice product item) = decide (p ≤ 0)
    ∧ (∀ db rest db' pis sub, findProduct db item.productId = some product →
        processItems db (item :: rest) = Except.ok (db', pis, sub) →
        ∃ pi pis2, pis = pi :: pis2 ∧ pi.unitPrice = p
          ∧ pi.totalPrice = p * item.quantity) := by
  have ha : resolveUnitPrice product item = some p := by
    simp [resolveUnitPrice, truthyQ, hp, hnz]
  refine ⟨ha, by simp [ha, unitPriceInvalid], ?_⟩
  intro db rest db' pis sub hf hok
  simp only [processItems, hf, ha] at hok
  split at hok
  · cases hok
  · split at hok
    · cases hok
    · split at hok
      · cases hok
      · rename_i db2 pis2 sub2 hrest
        rw [Except.ok.injEq, Prod.mk.injEq] at hok
        obtain ⟨hdb, hrest2⟩ := hok
        rw [Prod.mk.injEq] at hrest2
        obtain ⟨hpis, hsub⟩ := hrest2
        exact ⟨_, _, hpis.symm, rfl, rfl⟩

/-- The C10 witness product: catalog price 1000. -/
def c10Product : Product := ⟨1, "Bag", some 1000, none, 9, []⟩

/-- The C10 witness item: client price 750, quantity 2. -/
def c10Item : ReqItem := ⟨1, none, none, some 750, 2⟩

/-- Result of the C10 witness item loop. -/
def c10Res : Catalog × List OrderItem × ℚ :=
  match processItems [c10Product] [c10Item] with
  | Except.ok t => t
  | Except.error _ => default

theorem C10_client_price_wins_witness :
    resolveUnitPrice c10Product c10Item = some 750
    ∧ unitPriceInvalid (resolveUnitPrice c10Product c10Item) = decide ((750 : ℚ) ≤ 0)
    ∧ ∃ pi pis2, c10Res.2.1 = pi :: pis2 ∧ pi.unitPrice = 750
        ∧ pi.totalPrice = 750 * c10Item.quantity :=
  have h := C10_client_price_wins c10Product c10Item 750 rfl (by norm_num)
  ⟨h.1, h.2.1,
   h.2.2 [c10Product] [] c10Res.1 c10Res.2.1 c10Res.2.2
     (by norm_num [findProduct, c10Product, c10Item])
     (by
       simp only [c10Res]
       norm_num [c10Product, c10Item, processItems, findProduct, truthyQ,
         resolveUnitPrice, resolveVariantSelection, saveProduct])⟩
